import Mathlib

/-!
Shallow embedding of the KIMEP classroom dashboard core
(`kimep_dashboard.py`): the smart interval parser
(`to_minutes`, `parse_interval_smart`) and the schedule normalizer
(`preprocess_data`).

Python strings are modelled as Lean `String`; the character-level
operations the code uses (`replace`, `upper`, `in`, `split`) are
modelled over `List Char`. Python `int(s)` is modelled for ASCII
inputs: an optional single leading sign followed by decimal digits
(exotic acceptances of CPython's `int` — unicode digits, unicode
minus, underscores, non-space whitespace — are outside the model;
the plain space character is already stripped by the caller).
Python exceptions are modelled by `Option`: `to_minutes` returns
`none` where the Python function would raise, and the caller's
bare `except:` maps `none` to the "Bad time format" rejection.
-/

namespace Kimep

abbrev Chars := List Char

/-- Python `s.replace(" ", "")`: drop every space character. -/
def removeSpaces (l : Chars) : Chars :=
  l.filter (fun c => c ≠ ' ')

/-- Python `s.upper()` (ASCII model). -/
def upperChars (l : Chars) : Chars :=
  l.map Char.toUpper

/-- Does `pat` occur at the start of `l`? -/
def leadsWith : Chars → Chars → Bool
  | [], _ => true
  | _ :: _, [] => false
  | a :: as, b :: bs => (a = b) && leadsWith as bs

/-- Python `pat in s`: substring containment. -/
def containsSub (l pat : Chars) : Bool :=
  match l with
  | [] => leadsWith pat []
  | _ :: rest => leadsWith pat l || containsSub rest pat

/-- Python `t.split(":")`: split on every colon; `n` colons give
`n + 1` (possibly empty) parts. -/
def splitOnColon : Chars → List Chars
  | [] => [[]]
  | c :: rest =>
    match splitOnColon rest with
    | [] => if c = ':' then [[], []] else [[c]]
    | p :: ps => if c = ':' then [] :: p :: ps else (c :: p) :: ps

/-- Value of a nonempty all-digit character list, in decimal. -/
def digitsVal (l : Chars) : Option Nat :=
  if l ≠ [] ∧ l.all (fun c => c.isDigit) then
    some (l.foldl (fun a c => a * 10 + (c.toNat - 48)) 0)
  else none

/-- Python `int(s)` (ASCII model): optional sign then digits; `none`
models the `ValueError` raised on anything else. -/
def pyInt : Chars → Option Int
  | [] => none
  | c :: rest =>
    if c = '-' then (digitsVal rest).map (fun n => -(Int.ofNat n))
    else if c = '+' then (digitsVal rest).map (fun n => Int.ofNat n)
    else (digitsVal (c :: rest)).map (fun n => Int.ofNat n)

/-- `to_minutes(t)`: convert `HH:MM` to minutes since midnight.
`h, m = t.split(":")` raises unless there are exactly two parts;
`int` raises on malformed parts; both are modelled by `none`. -/
def to_minutes (t : Chars) : Option Int :=
  match splitOnColon t with
  | [h, m] =>
    match pyInt h, pyInt m with
    | some hv, some mv => some (hv * 60 + mv)
    | _, _ => none
  | _ => none

/-- A Python value passed to `parse_interval_smart`: a string, or
any non-string value (the code only tests `isinstance(…, str)`). -/
inductive PyValue where
  | str : String → PyValue
  | nonStr : PyValue

/-- The 4-tuple `(start_min, end_min, fixed, error_message)` returned
by `parse_interval_smart`. -/
structure ParseResult where
  start_min : Option Int
  end_min : Option Int
  fixed : Bool
  error_message : String
deriving DecidableEq, Repr

/-- The markers `["ONLINE", "TBA", "NA"]` tested against the
uppercased interval. -/
def markers : List Chars :=
  ["ONLINE".toList, "TBA".toList, "NA".toList]

/-- `interval = interval.replace(" ", "")`: the space-stripped string. -/
def cleaned (s : String) : Chars :=
  removeSpaces s.toList

/-- `start_str`: the part of the cleaned interval before the first
dash (`interval.split("-", 1)[0]`). -/
def startTok (s : String) : Chars :=
  (cleaned s).takeWhile (fun c => c ≠ '-')

/-- `end_str`: the part of the cleaned interval after the first
dash (`interval.split("-", 1)[1]`). -/
def endTok (s : String) : Chars :=
  ((cleaned s).dropWhile (fun c => c ≠ '-')).tail

/-- `any(x in interval.upper() for x in ["ONLINE", "TBA", "NA"])`. -/
def hasMarker (s : String) : Bool :=
  markers.any (fun x => containsSub (upperChars (cleaned s)) x)

/-- The two-stage correction ladder on `(start, end)` from
`parse_interval_smart`: if `end <= start` add 720 minutes and set
`fixed`; if still `end <= start` add a further 1440 minutes and set
`fixed`. Returns the corrected end and the `fixed` flag. -/
def fixLadder (start e : Int) : Int × Bool :=
  let s1 := if e ≤ start then (e + 720, true) else (e, false)
  if s1.1 ≤ start then (s1.1 + 1440, true) else s1

/-- The f-string `f"Duration too long ({duration} min)"`. -/
def durationMsg (d : Int) : String :=
  "Duration too long (" ++ toString d ++ " min)"

/-- The body of `parse_interval_smart` after the dash and marker
checks: try parsing both sides, apply the correction ladder, apply
the duration cap. -/
def parseCore (s : String) : ParseResult :=
  match to_minutes (startTok s), to_minutes (endTok s) with
  | some start, some e0 =>
    let p := fixLadder start e0
    if 300 < p.1 - start then
      ⟨some start, some p.1, false, durationMsg (p.1 - start)⟩
    else
      ⟨some start, some p.1, p.2, ""⟩
  | _, _ => ⟨none, none, false, "Bad time format"⟩

/-- `parse_interval_smart(interval)`: parse a time interval and
auto-correct common scheduling mistakes. -/
def parse_interval_smart : PyValue → ParseResult
  | .nonStr => ⟨none, none, false, "Non-string interval"⟩
  | .str s =>
    if '-' ∈ cleaned s then
      if hasMarker s then
        ⟨none, none, false, "Non-time entry (ONLINE/TBA)"⟩
      else
        parseCore s
    else
      ⟨none, none, false, "Missing dash"⟩

example : parse_interval_smart (.str "9:00-10:30") =
    ⟨some 540, some 630, false, ""⟩ := by decide

example : parse_interval_smart (.str "ONLINE") =
    ⟨none, none, false, "Missing dash"⟩ := by decide

example : parse_interval_smart (.str "TBA-only") =
    ⟨none, none, false, "Non-time entry (ONLINE/TBA)"⟩ := by decide

example : parse_interval_smart (.str "9:00-15:30") =
    ⟨some 540, some 930, false, "Duration too long (390 min)"⟩ := by decide

example : parse_interval_smart (.str "1:00-2:00") =
    ⟨some 60, some 120, false, ""⟩ := by decide

example : parse_interval_smart (.str "100:00-1:00") =
    ⟨some 6000, some 2220, true, ""⟩ := by decide

example : parse_interval_smart (.str "12:00-1:00") =
    ⟨some 720, some 780, true, ""⟩ := by decide

example : parse_interval_smart (.str "9-30") =
    ⟨none, none, false, "Bad time format"⟩ := by decide

/-! ## The schedule normalizer (`preprocess_data`) -/

/-- One raw input row, carrying the values of the three required
columns. Arbitrary passthrough columns are carried along unchanged
by the Python code and play no role in any claim, so they are not
modelled. -/
structure RawRow where
  days : String
  class_times : String
  hall : String
deriving DecidableEq, Repr

/-- The raw table handed to `preprocess_data`: its column-name set
and its ordered rows. -/
structure RawTable where
  columns : List String
  rows : List RawRow
deriving DecidableEq, Repr

/-- `required_cols = ["Days", "Class_Times", "Hall"]`. -/
def required_cols : List String :=
  ["Days", "Class_Times", "Hall"]

/-- `missing = [c for c in required_cols if c not in df.columns]`. -/
def missingCols (df : RawTable) : List String :=
  required_cols.filter (fun c => ¬ df.columns.contains c)

/-- Cleaning of the `Days` column:
`.astype(str).str.upper().str.replace(" ", "")` (ASCII model of
`upper`). -/
def cleanDaysChars (l : Chars) : Chars :=
  (l.map Char.toUpper).filter (fun c => c ≠ ' ')

/-- Cleaning of the `Class_Times` column: replace en-dash and
em-dash with `-`, `.` with `:`, and strip spaces. -/
def cleanTimesChars (l : Chars) : Chars :=
  (((l.map (fun c => if c = '–' then '-' else c)).map
      (fun c => if c = '—' then '-' else c)).map
      (fun c => if c = '.' then ':' else c)).filter (fun c => c ≠ ' ')

/-- One row after column cleaning and smart parsing: the cleaned
fields plus the columns `Start_Min`, `End_Min`, `AutoFixed`,
`ErrorMessage`, `Duration` added by `preprocess_data`. -/
structure ParsedRow where
  days : String
  class_times : String
  hall : String
  start_min : Option Int
  end_min : Option Int
  auto_fixed : Bool
  error_message : String
  duration : Option Int
deriving DecidableEq, Repr

/-- A row of `df_valid`: a parsed row plus the derived `Start_Hour`
column (`Start_Min // 60`; Python `//` is floor division). -/
structure ValidRow where
  row : ParsedRow
  start_hour : Int
deriving DecidableEq, Repr

/-- The result of `preprocess_data`: the pair
`(df_valid, df_errors)` plus the `st.error` message the function
emits to the display layer when required columns are missing. -/
structure Dataset where
  valid : List ValidRow
  invalid : List ParsedRow
  missing_columns_error : Option String
deriving DecidableEq, Repr

/-- Per-row work of `preprocess_data`: clean `Days` and
`Class_Times`, apply `parse_interval_smart` to the cleaned interval
(a string, by `astype(str)`), and record the parser's 4-tuple and
the `Duration` difference column. -/
def processRow (r : RawRow) : ParsedRow :=
  let d := String.mk (cleanDaysChars r.days.toList)
  let ct := String.mk (cleanTimesChars r.class_times.toList)
  let p := parse_interval_smart (.str ct)
  ⟨d, ct, r.hall, p.start_min, p.end_min, p.fixed, p.error_message,
    match p.end_min, p.start_min with
    | some b, some a => some (b - a)
    | _, _ => none⟩

/-- The parsed table, in input row order. -/
def parsedRows (df : RawTable) : List ParsedRow :=
  df.rows.map processRow

/-- The `Start_Hour` derivation `(Start_Min // 60).astype(int)`;
`getD 0` extracts the value, which is present on every valid row. -/
def toValidRow (r : ParsedRow) : ValidRow :=
  ⟨r, Int.fdiv (r.start_min.getD 0) 60⟩

/-- `preprocess_data(df)`: check required columns, clean, parse,
and split into `df_valid` and `df_errors`. -/
def preprocess_data (df : RawTable) : Dataset :=
  if missingCols df = [] then
    let rows := parsedRows df
    let errors := rows.filter (fun r => r.error_message != "")
    let valids := rows.filter (fun r => r.error_message == "")
    ⟨valids.map toValidRow, errors, none⟩
  else
    ⟨[], [],
      some ("Missing required columns: " ++
        String.intercalate ", " (missingCols df))⟩

example :
    preprocess_data
      ⟨["Days", "Class_Times", "Hall"],
       [⟨"M W", "9.00 – 10.30", "A101"⟩, ⟨"T", "ONLINE", "B2"⟩]⟩ =
    ⟨[⟨⟨"MW", "9:00-10:30", "A101", some 540, some 630, false, "",
        some 90⟩, 9⟩],
     [⟨"T", "ONLINE", "B2", none, none, false, "Missing dash", none⟩],
     none⟩ := by decide

example :
    preprocess_data ⟨["Days", "Class_Times"], [⟨"M", "9:00-10:30", "A"⟩]⟩ =
    ⟨[], [], some "Missing required columns: Hall"⟩ := by decide

/-- Sample table used to exhibit the partition behavior: one valid
row and one rejected row. -/
def c3Table : RawTable :=
  ⟨["Days", "Class_Times", "Hall"],
   [⟨"M W", "9.00 – 10.30", "A101"⟩, ⟨"T", "ONLINE", "B2"⟩]⟩

/-- Sample table whose column set lacks `Hall`. -/
def c7Table : RawTable :=
  ⟨["Days", "Class_Times", "Other"], [⟨"M", "9:00-10:30", "A"⟩]⟩

/-- Sample table whose interval has an out-of-clock-range hour. -/
def c9Table : RawTable :=
  ⟨["Days", "Class_Times", "Hall"], [⟨"MW", "25:00-26:00", "A101"⟩]⟩

/-! ## Helper lemmas -/

lemma splitOnColon_ne_nil (l : Chars) : splitOnColon l ≠ [] := by
  cases l with
  | nil => simp [splitOnColon]
  | cons c rest =>
    unfold splitOnColon
    cases splitOnColon rest <;> by_cases hc : c = ':' <;> simp [hc]

/-- The concatenation of the parts of `splitOnColon l` is `l`
without its colons. -/
lemma splitOnColon_join (l : Chars) :
    (splitOnColon l).flatten = l.filter (fun c => c ≠ ':') := by
  induction l with
  | nil => rfl
  | cons a rest ih =>
    unfold splitOnColon
    rcases h : splitOnColon rest with _ | ⟨p, ps⟩
    · exact absurd h (splitOnColon_ne_nil rest)
    · rw [h] at ih
      by_cases ha : a = ':'
      · rw [if_pos ha, ha]
        simp only [List.flatten_cons, List.nil_append, List.filter_cons] at ih ⊢
        simpa using ih
      · rw [if_neg ha]
        simp only [List.flatten_cons, List.filter_cons, List.cons_append] at ih ⊢
        simp [ha, ih]

lemma mem_of_mem_splitOnColon {l part : Chars} (hp : part ∈ splitOnColon l)
    {c : Char} (hc : c ∈ part) : c ∈ l := by
  have hj : c ∈ (splitOnColon l).flatten := List.mem_flatten.2 ⟨part, hp, hc⟩
  rw [splitOnColon_join] at hj
  exact (List.mem_filter.1 hj).1

lemma pyInt_nonneg {l : Chars} {v : Int} (h : pyInt l = some v)
    (hm : '-' ∉ l) : 0 ≤ v := by
  cases l with
  | nil => simp [pyInt] at h
  | cons c rest =>
    have hc : ¬ c = '-' := fun hc => hm (hc ▸ List.mem_cons_self c rest)
    simp only [pyInt] at h
    rw [if_neg hc] at h
    by_cases hp : c = '+'
    · rw [if_pos hp, Option.map_eq_some'] at h
      obtain ⟨n, -, rfl⟩ := h
      exact Int.natCast_nonneg n
    · rw [if_neg hp, Option.map_eq_some'] at h
      obtain ⟨n, -, rfl⟩ := h
      exact Int.natCast_nonneg n

lemma to_minutes_nonneg {t : Chars} {v : Int} (h : to_minutes t = some v)
    (hm : '-' ∉ t) : 0 ≤ v := by
  unfold to_minutes at h
  rcases hs : splitOnColon t with _ | ⟨p1, l1⟩ <;> rw [hs] at h
  · simp at h
  rcases l1 with _ | ⟨p2, l2⟩
  · simp at h
  rcases l2 with _ | ⟨p3, l3⟩
  · dsimp only at h
    rcases h1 : pyInt p1 with _ | hv <;> rw [h1] at h
    · simp at h
    rcases h2 : pyInt p2 with _ | mv <;> rw [h2] at h
    · simp at h
    dsimp only at h
    have hv60 : hv * 60 + mv = v := Option.some.inj h
    have hnn1 : 0 ≤ hv := pyInt_nonneg h1 (fun hin =>
      hm (mem_of_mem_splitOnColon
        (by rw [hs]; exact List.mem_cons_self _ _) hin))
    have hnn2 : 0 ≤ mv := pyInt_nonneg h2 (fun hin =>
      hm (mem_of_mem_splitOnColon
        (by rw [hs]; exact List.mem_cons_of_mem _ (List.mem_cons_self _ _))
        hin))
    omega
  · simp at h

lemma not_dash_mem_startTok (s : String) : '-' ∉ startTok s := by
  intro h
  have := List.mem_takeWhile_imp h
  simp at this

lemma durationMsg_ne_empty (d : Int) : durationMsg d ≠ "" := by
  intro h
  have h2 : (durationMsg d).length = ("" : String).length := by rw [h]
  unfold durationMsg at h2
  rw [String.length_append, String.length_append] at h2
  have h3 : ("Duration too long (" : String).length = 19 := rfl
  have h4 : (" min)" : String).length = 5 := rfl
  have h5 : ("" : String).length = 0 := rfl
  omega

/-- Closed form of the two-stage correction ladder. -/
lemma fixLadder_eq (start e : Int) :
    fixLadder start e =
      if e ≤ start then
        if e + 720 ≤ start then (e + 720 + 1440, true) else (e + 720, true)
      else (e, false) := by
  unfold fixLadder
  by_cases h1 : e ≤ start
  · by_cases h2 : e + 720 ≤ start <;> simp [h1, h2]
  · simp [h1]

/-- `parseCore` when the left token fails to parse. -/
lemma parseCore_bad_left {s : String}
    (h1 : to_minutes (startTok s) = none) :
    parseCore s = ⟨none, none, false, "Bad time format"⟩ := by
  unfold parseCore
  rw [h1]

/-- `parseCore` when the right token fails to parse. -/
lemma parseCore_bad_right {s : String} {a : Int}
    (h1 : to_minutes (startTok s) = some a)
    (h2 : to_minutes (endTok s) = none) :
    parseCore s = ⟨none, none, false, "Bad time format"⟩ := by
  unfold parseCore
  rw [h1, h2]

/-- `parseCore` when both tokens parse. -/
lemma parseCore_eq_of (s : String) (a e0 : Int)
    (h1 : to_minutes (startTok s) = some a)
    (h2 : to_minutes (endTok s) = some e0) :
    parseCore s =
      if 300 < (fixLadder a e0).1 - a then
        ⟨some a, some (fixLadder a e0).1, false,
          durationMsg ((fixLadder a e0).1 - a)⟩
      else
        ⟨some a, some (fixLadder a e0).1, (fixLadder a e0).2, ""⟩ := by
  unfold parseCore
  rw [h1, h2]

/-- Reduction of `parse_interval_smart` when the dash is present, no
marker fires, and both sides parse. -/
lemma parse_str_eq (s : String) (a e0 : Int) (hd : '-' ∈ cleaned s)
    (hm : hasMarker s = false)
    (h1 : to_minutes (startTok s) = some a)
    (h2 : to_minutes (endTok s) = some e0) :
    parse_interval_smart (.str s) =
      if 300 < (fixLadder a e0).1 - a then
        ⟨some a, some (fixLadder a e0).1, false,
          durationMsg ((fixLadder a e0).1 - a)⟩
      else
        ⟨some a, some (fixLadder a e0).1, (fixLadder a e0).2, ""⟩ := by
  have hc := parseCore_eq_of s a e0 h1 h2
  simp [parse_interval_smart, hd, hm, hc]

/-- Inversion for the core: an empty error message forces the
success branch. -/
lemma parseCore_empty_inv {s : String}
    (hmsg : (parseCore s).error_message = "") :
    ∃ a e0, to_minutes (startTok s) = some a ∧
      to_minutes (endTok s) = some e0 ∧
      parseCore s = ⟨some a, some (fixLadder a e0).1,
        (fixLadder a e0).2, ""⟩ ∧
      (fixLadder a e0).1 - a ≤ 300 := by
  rcases h1 : to_minutes (startTok s) with _ | a
  · rw [parseCore_bad_left h1] at hmsg
    exact absurd hmsg (by decide)
  rcases h2 : to_minutes (endTok s) with _ | e0
  · rw [parseCore_bad_right h1 h2] at hmsg
    exact absurd hmsg (by decide)
  have he := parseCore_eq_of s a e0 h1 h2
  by_cases hdur : 300 < (fixLadder a e0).1 - a
  · rw [he, if_pos hdur] at hmsg
    exact absurd hmsg (durationMsg_ne_empty _)
  · rw [if_neg hdur] at he
    exact ⟨a, e0, rfl, rfl, he, by omega⟩

/-- Inversion for the full parser: an empty error message forces
the success branch. -/
lemma parse_empty_inv {s : String}
    (hmsg : (parse_interval_smart (.str s)).error_message = "") :
    ∃ a e0, to_minutes (startTok s) = some a ∧
      to_minutes (endTok s) = some e0 ∧
      parse_interval_smart (.str s) = ⟨some a, some (fixLadder a e0).1,
        (fixLadder a e0).2, ""⟩ ∧
      (fixLadder a e0).1 - a ≤ 300 := by
  by_cases hd : '-' ∈ cleaned s
  · cases hmk : hasMarker s with
    | true =>
      simp [parse_interval_smart, hd, hmk] at hmsg
    | false =>
      simp only [parse_interval_smart, if_pos hd, hmk, Bool.false_eq_true,
        if_false] at hmsg ⊢
      exact parseCore_empty_inv hmsg
  · simp [parse_interval_smart, hd] at hmsg

/-- Start minutes parsed from the left token are nonnegative: the
token lies left of the first dash, so it contains no minus sign. -/
lemma startTok_nonneg {s : String} {a : Int}
    (h1 : to_minutes (startTok s) = some a) : 0 ≤ a :=
  to_minutes_nonneg h1 (not_dash_mem_startTok s)

/-- Complementary filters split a list's length. -/
lemma length_filter_split (l : List ParsedRow) :
    (l.filter (fun r => r.error_message == "")).length +
      (l.filter (fun r => r.error_message != "")).length = l.length := by
  induction l with
  | nil => rfl
  | cons a t ih =>
    by_cases h : a.error_message = "" <;>
      simp [List.filter_cons, h] <;> omega

/-! ## Claim theorems -/

/-- C1 counterexample: the marker check does NOT precede the
separator check. `parse("ONLINE")` and `parse("N/A")` are rejected
as `Missing dash` (the `MissingSeparator` reason), not with the
non-time-entry message the claim demands; only the dash-containing
`"TBA-only"` reaches the marker check. -/
theorem C1_counterexample :
    parse_interval_smart (.str "ONLINE") =
      ⟨none, none, false, "Missing dash"⟩ ∧
    parse_interval_smart (.str "N/A") =
      ⟨none, none, false, "Missing dash"⟩ ∧
    parse_interval_smart (.str "TBA-only") =
      ⟨none, none, false, "Non-time entry (ONLINE/TBA)"⟩ ∧
    "Missing dash" ≠ "Non-time entry (ONLINE/TBA)" := by
  refine ⟨by decide, by decide, by decide, by decide⟩

/-- C1 (amended): the separator check precedes the marker check.
For inputs whose space-stripped form contains a dash and whose
uppercased form contains one of the markers ONLINE/TBA/NA, parse
rejects with the non-time-entry message; inputs without a dash are
always rejected as `Missing dash`, marker or not. -/
theorem C1_marker_after_dash (s : String)
    (hd : '-' ∈ cleaned s) (hm : hasMarker s = true) :
    parse_interval_smart (.str s) =
      ⟨none, none, false, "Non-time entry (ONLINE/TBA)"⟩ ∧
    ∀ s2 : String, '-' ∉ cleaned s2 →
      parse_interval_smart (.str s2) =
        ⟨none, none, false, "Missing dash"⟩ := by
  constructor
  · simp [parse_interval_smart, hd, hm]
  · intro s2 h2
    simp [parse_interval_smart, h2]

theorem C1_witness :
    ('-' ∈ cleaned "TBA-only" ∧ hasMarker "TBA-only" = true) ∧
    (parse_interval_smart (.str "TBA-only") =
        ⟨none, none, false, "Non-time entry (ONLINE/TBA)"⟩ ∧
      ∀ s2 : String, '-' ∉ cleaned s2 →
        parse_interval_smart (.str s2) =
          ⟨none, none, false, "Missing dash"⟩) :=
  ⟨⟨by decide, by decide⟩,
    C1_marker_after_dash "TBA-only" (by decide) (by decide)⟩

/-- C2 counterexample: `parse("100:00-1:00")` succeeds (empty error
message) with `start_minute = 6000`, `end_minute = 2220`, so the
claimed invariant `end_minute > start_minute` fails on a
successfully parsed row. -/
theorem C2_counterexample :
    parse_interval_smart (.str "100:00-1:00") =
      ⟨some 6000, some 2220, true, ""⟩ ∧
    ¬ ((6000 : Int) < 2220) := by
  refine ⟨by decide, by decide⟩

/-- C2 (amended): on every Success, `0 ≤ start_minute` and
`duration_minutes = end_minute - start_minute ≤ 300` hold
unconditionally, and `end_minute > start_minute` holds whenever the
raw parsed end is nonnegative and the start is below 2160 minutes —
in particular for all ordinary clock times. The unconditional
`end_minute > start_minute` of the claim fails (see the
counterexample) because the +720/+1440 ladder cannot recover from a
start more than 2160 minutes above the end. -/
theorem C2_valid_range (s : String) (a b : Int) (fx : Bool)
    (h : parse_interval_smart (.str s) = ⟨some a, some b, fx, ""⟩) :
    0 ≤ a ∧ b - a ≤ 300 ∧
    (∀ e0 : Int, to_minutes (endTok s) = some e0 →
      0 ≤ e0 → a < 2160 → a < b) := by
  have hmsg : (parse_interval_smart (.str s)).error_message = "" := by
    rw [h]
  obtain ⟨a', e0, h1, h2, hres, hcap⟩ := parse_empty_inv hmsg
  rw [h] at hres
  simp only [ParseResult.mk.injEq, Option.some.injEq] at hres
  obtain ⟨ha, hb, -⟩ := hres
  subst ha
  refine ⟨startTok_nonneg h1, by omega, ?_⟩
  intro e1 he1 he1n hlt
  rw [h2] at he1
  obtain rfl : e0 = e1 := Option.some.inj he1
  rw [fixLadder_eq] at hb
  by_cases hc1 : e0 ≤ a
  · by_cases hc2 : e0 + 720 ≤ a
    · rw [if_pos hc1, if_pos hc2] at hb
      dsimp only at hb
      omega
    · rw [if_pos hc1, if_neg hc2] at hb
      dsimp only at hb
      omega
  · rw [if_neg hc1] at hb
    dsimp only at hb
    omega

theorem C2_witness :
    parse_interval_smart (.str "9:00-10:30") =
      ⟨some 540, some 630, false, ""⟩ ∧
    ((0 : Int) ≤ 540 ∧ (630 : Int) - 540 ≤ 300 ∧
      (∀ e0 : Int, to_minutes (endTok "9:00-10:30") = some e0 →
        0 ≤ e0 → (540 : Int) < 2160 → (540 : Int) < 630)) :=
  ⟨by decide, C2_valid_range "9:00-10:30" 540 630 false (by decide)⟩

/-- C3: exhaustive partition. When the required columns are
present, `len(valid) + len(invalid)` equals the number of input
rows, both outputs are (order-preserving) sublists of the in-order
parsed image of the input rows, and no parsed row lands in both
outputs. -/
theorem C3_partition (df : RawTable) (h : missingCols df = []) :
    (preprocess_data df).valid.length +
      (preprocess_data df).invalid.length = df.rows.length ∧
    ((preprocess_data df).valid.map ValidRow.row).Sublist
      (parsedRows df) ∧
    (preprocess_data df).invalid.Sublist (parsedRows df) ∧
    ∀ r : ParsedRow,
      ¬(r ∈ (preprocess_data df).valid.map ValidRow.row ∧
        r ∈ (preprocess_data df).invalid) := by
  unfold preprocess_data
  rw [if_pos h]
  dsimp only
  have hmap : ∀ l : List ParsedRow,
      (l.map toValidRow).map ValidRow.row = l := by
    intro l
    rw [List.map_map]
    exact List.map_id l
  refine ⟨?_, ?_, ?_, ?_⟩
  · rw [List.length_map]
    have := length_filter_split (parsedRows df)
    calc (List.filter (fun r => r.error_message == "")
          (parsedRows df)).length +
        (List.filter (fun r => r.error_message != "")
          (parsedRows df)).length
        = (parsedRows df).length := this
      _ = df.rows.length := by rw [parsedRows, List.length_map]
  · rw [hmap]
    exact List.filter_sublist _
  · exact List.filter_sublist _
  · intro r ⟨hv, he⟩
    rw [hmap] at hv
    have h1 : (r.error_message == "") = true := (List.mem_filter.1 hv).2
    have h2 : (r.error_message != "") = true := (List.mem_filter.1 he).2
    simp at h1 h2
    exact h2 h1

theorem C3_witness :
    missingCols c3Table = [] ∧
    ((preprocess_data c3Table).valid.length +
        (preprocess_data c3Table).invalid.length =
        c3Table.rows.length ∧
      ((preprocess_data c3Table).valid.map ValidRow.row).Sublist
        (parsedRows c3Table) ∧
      (preprocess_data c3Table).invalid.Sublist (parsedRows c3Table) ∧
      ∀ r : ParsedRow,
        ¬(r ∈ (preprocess_data c3Table).valid.map ValidRow.row ∧
          r ∈ (preprocess_data c3Table).invalid)) :=
  ⟨by decide, C3_partition c3Table (by decide)⟩

/-- C4 counterexample: `parse("1:00-2:00")` is NOT auto-fixed: the
parsed pair is `start = 60 < end = 120`, so no +720 correction is
applied and the returned `fixed` flag is `false`, contradicting the
claimed `auto_fixed == true`. -/
theorem C4_counterexample :
    parse_interval_smart (.str "1:00-2:00") =
      ⟨some 60, some 120, false, ""⟩ ∧
    (false ≠ true) := by
  refine ⟨by decide, by decide⟩

/-- C4 (amended): `parse("1:00-2:00")` parses to `start = 60`,
`end = 120` with `end > start` already, so the correction ladder
leaves it unchanged: duration is 60, `auto_fixed = false`, and the
row is classified valid (empty error message). -/
theorem C4_no_fix_needed :
    parse_interval_smart (.str "1:00-2:00") =
      ⟨some 60, some 120, false, ""⟩ ∧
    fixLadder 60 120 = (120, false) ∧
    (120 : Int) - 60 = 60 := by
  refine ⟨by decide, by decide, by decide⟩

/-- C5: the two-stage correction ladder. If `end > start` no
correction is applied and the flag stays `false`; if
`end ≤ start < end + 720` exactly +720 is applied with the flag set;
if even `end + 720 ≤ start` a further +1440 is applied with the
flag set. -/
theorem C5_correction_ladder (start e : Int) :
    (start < e → fixLadder start e = (e, false)) ∧
    (e ≤ start → start < e + 720 →
      fixLadder start e = (e + 720, true)) ∧
    (e ≤ start → e + 720 ≤ start →
      fixLadder start e = (e + 720 + 1440, true)) := by
  refine ⟨?_, ?_, ?_⟩
  · intro h1
    rw [fixLadder_eq, if_neg (by omega)]
  · intro h1 h2
    rw [fixLadder_eq, if_pos h1, if_neg (by omega)]
  · intro h1 h2
    rw [fixLadder_eq, if_pos h1, if_pos h2]

theorem C5_witness :
    fixLadder 0 30 = (30, false) ∧
    fixLadder 720 60 = (60 + 720, true) ∧
    fixLadder 6000 60 = (60 + 720 + 1440, true) :=
  ⟨(C5_correction_ladder 0 30).1 (by decide),
   (C5_correction_ladder 720 60).2.1 (by decide) (by decide),
   (C5_correction_ladder 6000 60).2.2 (by decide) (by decide)⟩

/-- C6: the duration cap. When both sides parse as `HH:MM` (dash
present, no marker), a post-correction duration above 300 minutes
is rejected with the message carrying the computed duration, and a
duration of at most 300 minutes is accepted with the ladder's fixed
flag. In particular `parse("9:00-15:30")` (duration 390) is
rejected and `parse("9:00-13:30")` (duration 270) is valid with
`auto_fixed = false` (see the witness). -/
theorem C6_duration_cap (s : String) (a e0 : Int)
    (hd : '-' ∈ cleaned s) (hm : hasMarker s = false)
    (h1 : to_minutes (startTok s) = some a)
    (h2 : to_minutes (endTok s) = some e0) :
    (300 < (fixLadder a e0).1 - a →
      parse_interval_smart (.str s) =
        ⟨some a, some (fixLadder a e0).1, false,
          durationMsg ((fixLadder a e0).1 - a)⟩) ∧
    ((fixLadder a e0).1 - a ≤ 300 →
      parse_interval_smart (.str s) =
        ⟨some a, some (fixLadder a e0).1, (fixLadder a e0).2, ""⟩) := by
  have hp := parse_str_eq s a e0 hd hm h1 h2
  constructor
  · intro hc
    rw [hp, if_pos hc]
  · intro hc
    rw [hp, if_neg (by omega)]

theorem C6_witness :
    (parse_interval_smart (.str "9:00-15:30") =
        ⟨some 540, some 930, false, "Duration too long (390 min)"⟩) ∧
    (parse_interval_smart (.str "9:00-13:30") =
        ⟨some 540, some 810, false, ""⟩) :=
  ⟨((C6_duration_cap "9:00-15:30" 540 930 (by decide) (by decide)
      (by decide) (by decide)).1 (by decide)).trans (by decide),
   ((C6_duration_cap "9:00-13:30" 540 810 (by decide) (by decide)
      (by decide) (by decide)).2 (by decide)).trans (by decide)⟩

/-- C7: the missing-column guard. If any of `Days`, `Class_Times`,
`Hall` is absent from the input's columns, `preprocess_data`
returns two empty sequences and surfaces an error message listing
exactly the missing columns, and every absent required column is
listed. -/
theorem C7_missing_columns (df : RawTable) (h : missingCols df ≠ []) :
    (preprocess_data df).valid = [] ∧
    (preprocess_data df).invalid = [] ∧
    (preprocess_data df).missing_columns_error =
      some ("Missing required columns: " ++
        String.intercalate ", " (missingCols df)) ∧
    ∀ c ∈ required_cols, ¬ (df.columns.contains c = true) →
      c ∈ missingCols df := by
  unfold preprocess_data
  rw [if_neg h]
  refine ⟨rfl, rfl, rfl, ?_⟩
  intro c hc hnc
  exact List.mem_filter.2 ⟨hc, by simpa using hnc⟩

theorem C7_witness :
    (missingCols c7Table ≠ [] ∧ missingCols c7Table = ["Hall"]) ∧
    ((preprocess_data c7Table).valid = [] ∧
      (preprocess_data c7Table).invalid = [] ∧
      (preprocess_data c7Table).missing_columns_error =
        some ("Missing required columns: " ++
          String.intercalate ", " (missingCols c7Table)) ∧
      ∀ c ∈ required_cols, ¬ (c7Table.columns.contains c = true) →
        c ∈ missingCols c7Table) :=
  ⟨⟨by decide, by decide⟩, C7_missing_columns c7Table (by decide)⟩

/-- C8: totality of the parser. For every input value — any string,
including the empty string, or any non-string — the parser returns
either a success (empty error message, with both minute fields
present) or a rejection with a non-empty error message; raising is
modelled away: the only partial operation (`to_minutes`) returns an
`Option` whose `none` is mapped to the "Bad time format" rejection. -/
theorem C8_parse_total (v : PyValue) :
    ((parse_interval_smart v).error_message = "" ∧
      (parse_interval_smart v).start_min.isSome = true ∧
      (parse_interval_smart v).end_min.isSome = true) ∨
    (parse_interval_smart v).error_message ≠ "" := by
  cases v with
  | nonStr =>
    right
    simp [parse_interval_smart]
  | str s =>
    by_cases hd : '-' ∈ cleaned s
    · cases hmk : hasMarker s with
      | true =>
        right
        simp [parse_interval_smart, hd, hmk]
      | false =>
        rcases h1 : to_minutes (startTok s) with _ | a
        · right
          simp [parse_interval_smart, hd, hmk, parseCore_bad_left h1]
        rcases h2 : to_minutes (endTok s) with _ | e0
        · right
          simp [parse_interval_smart, hd, hmk,
            parseCore_bad_right h1 h2]
        have hp := parse_str_eq s a e0 hd hmk h1 h2
        by_cases hdur : 300 < (fixLadder a e0).1 - a
        · right
          rw [hp, if_pos hdur]
          exact durationMsg_ne_empty _
        · left
          rw [hp, if_neg hdur]
          exact ⟨rfl, rfl, rfl⟩
    · right
      simp [parse_interval_smart, hd]

/-- C9 counterexample: a table whose interval is "25:00-26:00" is
classified valid (the parser does not range-check hours), and its
derived `Start_Hour` is 25, outside the claimed 0–23 range. -/
theorem C9_counterexample :
    (preprocess_data c9Table).valid.map (fun r => r.start_hour) =
      [25] ∧
    ¬ ((25 : Int) ≤ 23) := by
  refine ⟨by decide, by decide⟩

/-- C9 (amended): for every row in the valid output, the derived
`Start_Hour` equals `start_minute` floor-divided by 60 and is
nonnegative; it is NOT bounded by 23, because hour fields are not
range-checked (see the counterexample with "25:00-26:00"). -/
theorem C9_start_hour (df : RawTable) (vr : ValidRow)
    (h : vr ∈ (preprocess_data df).valid) :
    (∃ a : Int, vr.row.start_min = some a ∧ 0 ≤ a ∧
      vr.start_hour = Int.fdiv a 60) ∧
    0 ≤ vr.start_hour := by
  by_cases hm : missingCols df = []
  · unfold preprocess_data at h
    rw [if_pos hm] at h
    dsimp only at h
    obtain ⟨r, hr, rfl⟩ := List.mem_map.1 h
    have hrf := List.mem_filter.1 hr
    have hmem : r ∈ parsedRows df := hrf.1
    have hmsg0 : r.error_message = "" := by simpa using hrf.2
    unfold parsedRows at hmem
    obtain ⟨raw, -, rfl⟩ := List.mem_map.1 hmem
    have hpm : (parse_interval_smart
        (.str (String.mk (cleanTimesChars raw.class_times.toList)))
        ).error_message = "" := hmsg0
    obtain ⟨a, e0, h1, h2, hres, -⟩ := parse_empty_inv hpm
    have ha : 0 ≤ a := startTok_nonneg h1
    have hsm : (toValidRow (processRow raw)).row.start_min =
        some a := by
      show (parse_interval_smart
        (.str (String.mk (cleanTimesChars raw.class_times.toList)))
        ).start_min = some a
      rw [hres]
    have hsh : (toValidRow (processRow raw)).start_hour =
        Int.fdiv a 60 := by
      show Int.fdiv (((parse_interval_smart
        (.str (String.mk (cleanTimesChars raw.class_times.toList)))
        ).start_min).getD 0) 60 = Int.fdiv a 60
      rw [hres]
      rfl
    refine ⟨⟨a, hsm, ha, hsh⟩, ?_⟩
    rw [hsh]
    exact Int.fdiv_nonneg ha (by norm_num)
  · unfold preprocess_data at h
    rw [if_neg hm] at h
    simp at h

/-- Concrete valid row produced from `c9Table`. -/
def c9Row : ValidRow :=
  ⟨⟨"MW", "25:00-26:00", "A101", some 1500, some 1560, false, "",
    some 60⟩, 25⟩

theorem C9_witness :
    c9Row ∈ (preprocess_data c9Table).valid ∧
    ((∃ a : Int, c9Row.row.start_min = some a ∧ 0 ≤ a ∧
        c9Row.start_hour = Int.fdiv a 60) ∧
      0 ≤ c9Row.start_hour) :=
  ⟨by decide, C9_start_hour c9Table c9Row (by decide)⟩

/-- C10: when the parser rejects for an over-cap duration, it still
returns the computed start and (corrected) end minutes, and the
returned fixed flag is hard-coded `false`, even when the ladder had
applied a correction (the witness exercises "2:00-1:00", where the
ladder fires and yet `false` is reported). -/
theorem C10_overcap_flag (s : String) (a e0 : Int)
    (hd : '-' ∈ cleaned s) (hm : hasMarker s = false)
    (h1 : to_minutes (startTok s) = some a)
    (h2 : to_minutes (endTok s) = some e0)
    (hdur : 300 < (fixLadder a e0).1 - a) :
    parse_interval_smart (.str s) =
      ⟨some a, some (fixLadder a e0).1, false,
        durationMsg ((fixLadder a e0).1 - a)⟩ := by
  rw [parse_str_eq s a e0 hd hm h1 h2, if_pos hdur]

theorem C10_witness :
    fixLadder 120 60 = (780, true) ∧
    parse_interval_smart (.str "2:00-1:00") =
      ⟨some 120, some (fixLadder 120 60).1, false,
        durationMsg ((fixLadder 120 60).1 - 120)⟩ :=
  ⟨by decide,
   C10_overcap_flag "2:00-1:00" 120 60 (by decide) (by decide)
     (by decide) (by decide) (by decide)⟩

end Kimep
